import Mathlib

/-!
Verification of the Yarabot Telegram relay bot (`botcode.py`).

The development embeds the streaming-response decoder of `send_to_yarabot`,
the per-chat session dictionary `chat_sessions`, and the observable event
traces (audit-log appends, user replies, network calls) of
`handle_text_message` and `handle_voice_message`, and proves the spec's
claims about them.
-/

namespace Yarabot

/-- JSON values as produced by `json.loads`. Numbers are modelled as
integers; the protocol's payloads are strings and opaque identifiers, and
no claim depends on float arithmetic. -/
inductive JValue where
  | null : JValue
  | bool (b : Bool) : JValue
  | num (n : Int) : JValue
  | str (s : String) : JValue
  | arr (elems : List JValue) : JValue
  | obj (fields : List (String × JValue)) : JValue

/-- A parsed JSON object's fields. `json.loads` keeps the last value for a
duplicated key, so lookup returns the last binding. -/
def JObj : Type := List (String × JValue)

/-- Field lookup in a parsed JSON object (Python `d[k]` / `k in d`,
combined: `jGet d k = some v` iff `k in d` and `d[k] == v`). -/
def jGet (fields : JObj) (k : String) : Option JValue :=
  match fields with
  | [] => none
  | (k2, v) :: fs =>
    match jGet fs k with
    | some v2 => some v2
    | none => if k2 = k then some v else none

/-- Is the value a JSON string? (Python `isinstance(v, str)`.) -/
def JValue.isStr : JValue → Bool
  | .str _ => true
  | _ => false

/-- The module-level dictionary `chat_sessions` mapping a chat id to the
stored `session_id` value, modelled as a total map into `Option`. -/
def SessionMap : Type := Int → Option JValue

/-- Initial state of `chat_sessions` (the empty dictionary). -/
def chat_sessions : SessionMap := fun _ => none

/-- `chat_sessions[chat_id] = v`. -/
def setSession (cid : Int) (v : JValue) (m : SessionMap) : SessionMap :=
  fun c => if c = cid then some v else m c

/-- One chunk of the streamed response, classified by what
`chunk.strip()` and `json.loads` make of its raw text: blank (skipped by
the loop), unparsable (`json.JSONDecodeError`), a JSON value that is not a
dict, or a JSON object. -/
inductive ParsedChunk where
  | empty : ParsedChunk
  | malformed : ParsedChunk
  | nonDict (v : JValue) : ParsedChunk
  | dict (fields : JObj) : ParsedChunk

/-- Terminal result of decoding one stream (spec §3 `Outcome`).
`ApiError` carries the value of the chunk's `error` field;
`UnexpectedFormat` covers both a non-dict chunk and a dict with none of
the recognized keys (the code sends the same fixed message for both);
`ProcessingError` is the generic `except Exception` branch of the chunk
loop (e.g. a non-string `data` value making `+=` raise `TypeError`). -/
inductive Outcome where
  | Delivered (t : String) : Outcome
  | Empty : Outcome
  | ApiError (detail : JValue) : Outcome
  | ParseError : Outcome
  | UnexpectedFormat : Outcome
  | ProcessingError : Outcome

/-- The effect of one chunk on the decode loop. -/
inductive StepRes where
  | skip : StepRes
  | setSess (v : JValue) : StepRes
  | append (s : String) : StepRes
  | finishMsg : StepRes
  | finish (o : Outcome) : StepRes

/-- Dispatch of one chunk, translating the body of the `async for` loop of
`send_to_yarabot` (botcode.py lines 209-256): a blank chunk is skipped; a
parse failure is terminal (`ParseError`); a non-dict value is terminal
(`UnexpectedFormat`); for a dict, key presence is checked by the `elif`
chain in the order `session_id`, `data`, `message_id`, `error`, with the
no-key `else` terminal (`UnexpectedFormat`). Python's `k in d` followed by
`d[k]` is exactly `jGet d k = some v`. A `data` value that is not a string
makes `full_response += chunk_data["data"]` raise; the exception is caught
by the loop's generic handler (lines 264-269), terminal
(`ProcessingError`). -/
def classify : ParsedChunk → StepRes
  | .empty => .skip
  | .malformed => .finish .ParseError
  | .nonDict _ => .finish .UnexpectedFormat
  | .dict d =>
    match jGet d "session_id" with
    | some v => .setSess v
    | none =>
      match jGet d "data" with
      | some (.str s) => .append s
      | some _ => .finish .ProcessingError
      | none =>
        match jGet d "message_id" with
        | some _ => .finishMsg
        | none =>
          match jGet d "error" with
          | some v => .finish (.ApiError v)
          | none => .finish .UnexpectedFormat

/-- `full_response.replace('*', '')`: remove every asterisk. -/
def stripStars (s : String) : String :=
  ⟨s.data.filter (fun c => c ≠ '*')⟩

/-- The shared terminal block for `message_id` (lines 223-237) and for end
of stream (lines 272-286): `if full_response:` deliver the
asterisk-stripped accumulator, else the fixed empty outcome. -/
def endOutcome (acc : String) : Outcome :=
  if acc = "" then .Empty else .Delivered (stripStars acc)

/-- Result of running the decode loop: the terminal outcome, the session
map after all `session_id` writes, and the chunks left unconsumed when the
loop returned. -/
structure DecodeResult where
  outcome : Outcome
  session : SessionMap
  rest : List ParsedChunk

/-- The decode loop of `send_to_yarabot` (lines 205-286): start with
`full_response = ""`, process chunks in order; `session_id` writes
`chat_sessions[chat_id]` and continues, `data` appends and continues, any
terminal case returns at once, leaving later chunks unconsumed; end of
stream falls through to the same delivery block as `message_id`. -/
def decodeLoop (cid : Int) : List ParsedChunk → String → SessionMap → DecodeResult
  | [], acc, m => ⟨endOutcome acc, m, []⟩
  | c :: cs, acc, m =>
    match classify c with
    | .skip => decodeLoop cid cs acc m
    | .setSess v => decodeLoop cid cs acc (setSession cid v m)
    | .append s => decodeLoop cid cs (acc ++ s) m
    | .finishMsg => ⟨endOutcome acc, m, cs⟩
    | .finish o => ⟨o, m, cs⟩

/-- A chunk is non-terminal when the loop continues past it: blank,
dispatched as a `session_id` write, or dispatched as a string `data`
append. -/
def nonTerminalChunk (c : ParsedChunk) : Bool :=
  match classify c with
  | .skip => true
  | .setSess _ => true
  | .append _ => true
  | .finishMsg => false
  | .finish _ => false

/-- A chunk whose first-matching key is `session_id`. -/
def sessionDispatched (c : ParsedChunk) : Bool :=
  match classify c with
  | .setSess _ => true
  | _ => false

/-- The session-map effect of one consumed chunk. -/
def stepSession (cid : Int) (m : SessionMap) (c : ParsedChunk) : SessionMap :=
  match classify c with
  | .setSess v => setSession cid v m
  | _ => m

/-- The session-map effect of a consumed chunk sequence, in order
(last write wins). -/
def sessionFold (cid : Int) (cs : List ParsedChunk) (m : SessionMap) : SessionMap :=
  cs.foldl (stepSession cid) m

/-- The accumulator effect of one consumed chunk. -/
def stepAcc (acc : String) (c : ParsedChunk) : String :=
  match classify c with
  | .append s => acc ++ s
  | _ => acc

/-- The accumulator after a consumed chunk sequence. -/
def accFold (cs : List ParsedChunk) (acc : String) : String :=
  cs.foldl stepAcc acc

/-- Value of the last `session_id`-dispatched chunk of a sequence,
starting from a given earlier value. -/
def lastSessionFrom (cs : List ParsedChunk) (a : Option JValue) : Option JValue :=
  cs.foldl
    (fun a c =>
      match classify c with
      | .setSess v => some v
      | _ => a)
    a

/-- Value of the last `session_id`-dispatched chunk of a sequence, if
any. -/
def lastSessionVal (cs : List ParsedChunk) : Option JValue :=
  lastSessionFrom cs none

/-- Plain string concatenation of a list, in order. -/
def concatStrings : List String → String
  | [] => ""
  | s :: ss => s ++ concatStrings ss

/-- One externally observable action of a handler: an audit-log append
(`log_chat`), a user-visible reply (`reply_text`), or opening the network
request to the chat API. -/
inductive Event where
  | audit (chatId : Int) (messageType : String) (content : String) (direction : String) : Event
  | reply (text : String) : Event
  | netCall : Event
deriving DecidableEq

/-- What the network interaction in `send_to_yarabot` produced: a 200
response with its chunk sequence, a non-2xx status with its body text, a
read timeout, or some other exception with its rendered text. -/
inductive NetResult where
  | ok (chunks : List ParsedChunk) : NetResult
  | httpError (status : Nat) (body : String) : NetResult
  | readTimeout : NetResult
  | netException (msg : String) : NetResult

/-- What downloading the voice file produced in `handle_voice_message`:
an exception (rendered text), or a file of the given size in bytes. -/
inductive DownloadResult where
  | failed (msg : String) : DownloadResult
  | ok (size : Nat) : DownloadResult

/-- Fixed message of the empty-delivery branch (lines 235 and 284). -/
def noResponseText : String := "No response received from the API."

/-- Fixed message of the JSON-decode-failure branch (line 260). -/
def parseErrorText : String := "Error: Could not parse API response."

/-- Fixed message of the unexpected-structure branches (lines 247, 253). -/
def unexpectedText : String := "Received unexpected response format from API."

/-- Message of the generic chunk-exception branch (line 266),
`f"Error processing API response: {e}"`. The interpreter-generated
exception text is abstracted by a fixed placeholder; no claim depends on
it. -/
def processingErrorText : String := "Error processing API response: <exception>"

/-- Fixed message of the read-timeout branch (line 313). -/
def timeoutText : String := "Error: API response timed out. Please try again later."

/-- Python `str()` rendering of a JSON value as interpolated into the
f-strings; the rendering of nested containers is abstracted by fixed
placeholders (no claim depends on it). -/
def jRender : JValue → String
  | .null => "None"
  | .bool true => "True"
  | .bool false => "False"
  | .num n => toString n
  | .str s => s
  | .arr _ => "<list>"
  | .obj _ => "<dict>"

/-- The reply/audit events the terminal block of `send_to_yarabot` emits
for an outcome: each terminal case replies to the user and appends one
outgoing audit entry with the same text; a delivery on a voice request
additionally appends a `voice_transcription` outgoing entry
(lines 221-286). -/
def outcomeEvents (cid : Int) (msgType : String) : Outcome → List Event
  | .Delivered t =>
    [.reply t, .audit cid "text" t "outgoing"] ++
      (if msgType = "voice" then [.audit cid "voice_transcription" t "outgoing"] else [])
  | .Empty => [.reply noResponseText, .audit cid "text" noResponseText "outgoing"]
  | .ApiError v =>
    [.reply ("API Error: " ++ jRender v),
     .audit cid "text" ("API Error: " ++ jRender v) "outgoing"]
  | .ParseError => [.reply parseErrorText, .audit cid "text" parseErrorText "outgoing"]
  | .UnexpectedFormat => [.reply unexpectedText, .audit cid "text" unexpectedText "outgoing"]
  | .ProcessingError =>
    [.reply processingErrorText, .audit cid "text" processingErrorText "outgoing"]

/-- The status-code taxonomy of the non-200 branch (lines 288-309);
`body` is already the defaulted error body. -/
def httpErrorMessage (status : Nat) (body : String) : String :=
  let base := "Error: " ++ toString status
  if status = 400 then base ++ " - Bad Request: " ++ body
  else if status = 401 then base ++ " - Unauthorized: Invalid API key."
  else if status = 404 then base ++ " - Not Found: Agent ID not found."
  else if status = 413 then base ++ " - Payload Too Large."
  else if status = 422 then base ++ " - Unprocessable Entity: Invalid data format."
  else base ++ " - " ++ body

/-- `send_to_yarabot` (lines 191-320): open the request, then on 200 run
the decode loop and emit its terminal events; on a non-2xx status reply
with the taxonomy message and log it; a read timeout or any other
exception replies with its fixed/rendered message and logs it. Returns
the emitted event trace and the session map after the call. `msgType`
is the request's `data['type']` (`"text"` or `"voice"`). -/
def send_to_yarabot (cid : Int) (msgType : String) (net : NetResult) (m : SessionMap) :
    List Event × SessionMap :=
  match net with
  | .ok chunks =>
    let r := decodeLoop cid chunks "" m
    (Event.netCall :: outcomeEvents cid msgType r.outcome, r.session)
  | .httpError status body =>
    let eb := if body = "" then "No error body received" else body
    let msg := httpErrorMessage status eb
    ([.netCall, .reply msg, .audit cid "text" msg "outgoing"], m)
  | .readTimeout =>
    ([.netCall, .reply timeoutText, .audit cid "text" timeoutText "outgoing"], m)
  | .netException e =>
    let msg := "Error communicating with API: " ++ e
    ([.netCall, .reply msg, .audit cid "text" msg "outgoing"], m)

/-- `handle_text_message` (lines 85-111): log the incoming text, then send
it to the API. -/
def handle_text_message (cid : Int) (userMessage : String) (net : NetResult) (m : SessionMap) :
    List Event × SessionMap :=
  let r := send_to_yarabot cid "text" net m
  (Event.audit cid "text" userMessage "incoming" :: r.1, r.2)

/-- Fixed reply when the update carries no voice file (line 122). -/
def noVoiceText : String := "Error: Could not process the voice message."

/-- Fixed reply of the empty-download check (line 143). -/
def emptyAudioText : String := "Error: Downloaded audio file is empty."

/-- `handle_voice_message` (lines 113-189): with no voice file, reply and
return without logging; otherwise log the incoming voice message, download
the file, and reject a 0-byte file with a fixed reply (no audit append on
that path) before any request is built; a download exception replies and
logs; otherwise send the voice request. `voice` is the optional file id,
`dl` the download's result. -/
def handle_voice_message (cid : Int) (voice : Option String) (dl : DownloadResult)
    (net : NetResult) (m : SessionMap) : List Event × SessionMap :=
  match voice with
  | none => ([.reply noVoiceText], m)
  | some fid =>
    let incoming := Event.audit cid "voice" ("Voice message with file_id: " ++ fid) "incoming"
    match dl with
    | .failed e =>
      let msg := "Error processing voice message: " ++ e
      ([incoming, .reply msg, .audit cid "text" msg "outgoing"], m)
    | .ok size =>
      if size = 0 then
        ([incoming, .reply emptyAudioText], m)
      else
        let r := send_to_yarabot cid "voice" net m
        (incoming :: r.1, r.2)

/-- Is the event an outgoing audit-log append? -/
def isOutgoingAudit : Event → Bool
  | .audit _ _ _ d => d = "outgoing"
  | _ => false

/-- Is the event an incoming audit-log append? -/
def isIncomingAudit : Event → Bool
  | .audit _ _ _ d => d = "incoming"
  | _ => false

/-- The audit-log appends of a trace for a given chat id and direction. -/
def auditsOf (cid : Int) (dir : String) (tr : List Event) : List Event :=
  tr.filter fun e =>
    match e with
    | .audit c _ _ d => c == cid && d == dir
    | _ => false

/-- Consuming a non-terminal prefix folds its accumulator and session
effects and continues with the remaining chunks. -/
theorem decodeLoop_append (cid : Int) (pre tail : List ParsedChunk) (acc : String)
    (m : SessionMap) (h : ∀ c ∈ pre, nonTerminalChunk c = true) :
    decodeLoop cid (pre ++ tail) acc m =
      decodeLoop cid tail (accFold pre acc) (sessionFold cid pre m) := by
  induction pre generalizing acc m with
  | nil => simp [accFold, sessionFold]
  | cons c cs ih =>
    have hc : nonTerminalChunk c = true := h c (List.mem_cons_self c cs)
    have hcs : ∀ x ∈ cs, nonTerminalChunk x = true :=
      fun x hx => h x (List.mem_cons_of_mem c hx)
    cases hcl : classify c with
    | skip =>
      simp only [List.cons_append, decodeLoop, hcl, accFold, sessionFold, List.foldl_cons,
        stepAcc, stepSession]
      exact ih acc m hcs
    | setSess v =>
      simp only [List.cons_append, decodeLoop, hcl, accFold, sessionFold, List.foldl_cons,
        stepAcc, stepSession]
      exact ih acc (setSession cid v m) hcs
    | append s =>
      simp only [List.cons_append, decodeLoop, hcl, accFold, sessionFold, List.foldl_cons,
        stepAcc, stepSession]
      exact ih (acc ++ s) m hcs
    | finishMsg => simp [nonTerminalChunk, hcl] at hc
    | finish o => simp [nonTerminalChunk, hcl] at hc

/-- The accumulator fold over `data`-dispatched chunks appends the
concatenation of their string values. -/
theorem accFold_dataChunks (ds : List (JObj × String)) (acc : String)
    (hds : ∀ p ∈ ds, jGet p.1 "session_id" = none ∧ jGet p.1 "data" = some (JValue.str p.2)) :
    accFold (ds.map fun p => ParsedChunk.dict p.1) acc =
      acc ++ concatStrings (ds.map Prod.snd) := by
  induction ds generalizing acc with
  | nil => simp [accFold, concatStrings]
  | cons p ps ih =>
    have hp := hds p (List.mem_cons_self p ps)
    have hps : ∀ q ∈ ps, jGet q.1 "session_id" = none ∧ jGet q.1 "data" = some (JValue.str q.2) :=
      fun q hq => hds q (List.mem_cons_of_mem p hq)
    have hcl : classify (ParsedChunk.dict p.1) = StepRes.append p.2 := by
      simp [classify, hp.1, hp.2]
    simp only [List.map_cons, accFold, List.foldl_cons, stepAcc, hcl, concatStrings]
    rw [show List.foldl stepAcc (acc ++ p.2) (ps.map fun p => ParsedChunk.dict p.1) =
        accFold (ps.map fun p => ParsedChunk.dict p.1) (acc ++ p.2) from rfl,
      ih (acc ++ p.2) hps, String.append_assoc]

/-- The session fold ignores chunks that are not `session_id`-dispatched. -/
theorem sessionFold_no_session (cid : Int) (cs : List ParsedChunk) (m : SessionMap)
    (h : ∀ c ∈ cs, sessionDispatched c = false) :
    sessionFold cid cs m = m := by
  induction cs generalizing m with
  | nil => rfl
  | cons c cs2 ih =>
    have hc := h c (List.mem_cons_self c cs2)
    have hcs : ∀ x ∈ cs2, sessionDispatched x = false :=
      fun x hx => h x (List.mem_cons_of_mem c hx)
    cases hcl : classify c with
    | setSess v => simp [sessionDispatched, hcl] at hc
    | skip =>
      simp only [sessionFold, List.foldl_cons, stepSession, hcl]
      exact ih m hcs
    | append s =>
      simp only [sessionFold, List.foldl_cons, stepSession, hcl]
      exact ih m hcs
    | finishMsg =>
      simp only [sessionFold, List.foldl_cons, stepSession, hcl]
      exact ih m hcs
    | finish o =>
      simp only [sessionFold, List.foldl_cons, stepSession, hcl]
      exact ih m hcs

/-- C1: for a stream in which a `message_id`-dispatched chunk arrives
after zero or more `data`-dispatched chunks, the decoder yields
`Delivered` of the concatenation of the `data` string values in arrival
order with every asterisk removed, provided that accumulated text is
non-empty, and `Empty` when it is empty; the chunks after the
`message_id` chunk are not consumed and the session map is untouched. -/
theorem C1_message_id_delivery (cid : Int) (ds : List (JObj × String)) (d : JObj)
    (rest : List ParsedChunk) (m : SessionMap)
    (hds : ∀ p ∈ ds, jGet p.1 "session_id" = none ∧ jGet p.1 "data" = some (JValue.str p.2))
    (h1 : jGet d "session_id" = none) (h2 : jGet d "data" = none)
    (h3 : (jGet d "message_id").isSome = true) :
    decodeLoop cid ((ds.map fun p => ParsedChunk.dict p.1) ++ ParsedChunk.dict d :: rest)
        "" m =
      ⟨(if concatStrings (ds.map Prod.snd) = "" then Outcome.Empty
        else Outcome.Delivered (stripStars (concatStrings (ds.map Prod.snd)))), m, rest⟩ := by
  have hnt : ∀ c ∈ ds.map fun p => ParsedChunk.dict p.1, nonTerminalChunk c = true := by
    intro c hcm
    rcases List.mem_map.mp hcm with ⟨p, hp, rfl⟩
    have h := hds p hp
    simp [nonTerminalChunk, classify, h.1, h.2]
  have hnos : ∀ c ∈ ds.map fun p => ParsedChunk.dict p.1, sessionDispatched c = false := by
    intro c hcm
    rcases List.mem_map.mp hcm with ⟨p, hp, rfl⟩
    have h := hds p hp
    simp [sessionDispatched, classify, h.1, h.2]
  rw [decodeLoop_append cid _ _ "" m hnt, accFold_dataChunks ds "" hds,
    sessionFold_no_session cid _ m hnos]
  rcases Option.isSome_iff_exists.mp h3 with ⟨v, hv⟩
  have hcl : classify (ParsedChunk.dict d) = StepRes.finishMsg := by
    simp [classify, h1, h2, hv]
  simp only [decodeLoop, hcl, endOutcome, String.empty_append]

theorem C1_message_id_delivery_witness :
    decodeLoop 0
        ((([([("data", JValue.str "Hello ")], "Hello "),
            ([("data", JValue.str "wor*ld")], "wor*ld")] : List (JObj × String)).map
              fun p => ParsedChunk.dict p.1) ++
          ParsedChunk.dict [("message_id", JValue.num 1)] :: [ParsedChunk.malformed])
        "" chat_sessions =
      ⟨Outcome.Delivered "Hello world", chat_sessions, [ParsedChunk.malformed]⟩ := by
  have h := C1_message_id_delivery 0
      [([("data", JValue.str "Hello ")], "Hello "),
       ([("data", JValue.str "wor*ld")], "wor*ld")]
      [("message_id", JValue.num 1)] [ParsedChunk.malformed] chat_sessions
      (by intro p hp; simp only [List.mem_cons, List.not_mem_nil, or_false] at hp
          rcases hp with rfl | rfl <;> exact ⟨rfl, rfl⟩)
      rfl rfl rfl
  exact h.trans (by rfl)

/-- C2 (amended): a stream that ends without any terminal chunk yields
`Delivered` of the asterisk-stripped accumulator when the accumulated
text is non-empty, and `Empty` when it is empty (in particular a stream
whose `data` chunks all carry the empty string yields `Empty`, not
`Delivered`); the whole stream is consumed and the session map is the
fold of the `session_id` writes. -/
theorem C2_end_of_stream (cid : Int) (chunks : List ParsedChunk) (m : SessionMap)
    (h : ∀ c ∈ chunks, nonTerminalChunk c = true) :
    decodeLoop cid chunks "" m =
      ⟨(if accFold chunks "" = "" then Outcome.Empty
        else Outcome.Delivered (stripStars (accFold chunks ""))),
       sessionFold cid chunks m, []⟩ := by
  have h2 := decodeLoop_append cid chunks [] "" m h
  rw [List.append_nil] at h2
  rw [h2]
  rfl

theorem C2_end_of_stream_witness :
    decodeLoop 0
        [ParsedChunk.dict [("data", JValue.str "a*b")], ParsedChunk.empty,
         ParsedChunk.dict [("data", JValue.str "c")]]
        "" chat_sessions =
      ⟨Outcome.Delivered "abc", chat_sessions, []⟩ := by
  have h := C2_end_of_stream 0
      [ParsedChunk.dict [("data", JValue.str "a*b")], ParsedChunk.empty,
       ParsedChunk.dict [("data", JValue.str "c")]]
      chat_sessions
      (by intro c hc; simp only [List.mem_cons, List.not_mem_nil, or_false] at hc
          rcases hc with rfl | rfl | rfl <;> rfl)
  exact h.trans (by rfl)

theorem C2_end_of_stream_cex :
    (decodeLoop 0 [ParsedChunk.dict [("data", JValue.str "")]] "" chat_sessions).outcome
        = Outcome.Empty ∧
    (decodeLoop 0 [ParsedChunk.dict [("data", JValue.str "")]] "" chat_sessions).outcome
        ≠ Outcome.Delivered "" :=
  ⟨rfl, fun h => nomatch h⟩

/-- C3: the decoder dispatches a dict chunk on key presence in the fixed
priority order `session_id`, `data`, `message_id`, `error`, then the
unexpected-structure fallback, and only the first matching case applies:
any dict containing `session_id` — even one also containing `data`,
`message_id` or `error` — is a non-terminal session update; a dict whose
first match is `data` (string value) is a non-terminal append; a dict
whose first match is `message_id` — even one also containing `error` —
is the delivery terminal; a dict whose first match is `error` is the
`ApiError` terminal; a dict with none of the keys is the fallback
terminal. -/
theorem C3_dispatch_priority (cid : Int) (rest : List ParsedChunk) (acc : String)
    (m : SessionMap) :
    (∀ d v, jGet d "session_id" = some v →
      decodeLoop cid (ParsedChunk.dict d :: rest) acc m =
        decodeLoop cid rest acc (setSession cid v m)) ∧
    (∀ d s, jGet d "session_id" = none → jGet d "data" = some (JValue.str s) →
      decodeLoop cid (ParsedChunk.dict d :: rest) acc m =
        decodeLoop cid rest (acc ++ s) m) ∧
    (∀ d v, jGet d "session_id" = none → jGet d "data" = none →
        jGet d "message_id" = some v →
      decodeLoop cid (ParsedChunk.dict d :: rest) acc m = ⟨endOutcome acc, m, rest⟩) ∧
    (∀ d v, jGet d "session_id" = none → jGet d "data" = none →
        jGet d "message_id" = none → jGet d "error" = some v →
      decodeLoop cid (ParsedChunk.dict d :: rest) acc m = ⟨Outcome.ApiError v, m, rest⟩) ∧
    (∀ d, jGet d "session_id" = none → jGet d "data" = none →
        jGet d "message_id" = none → jGet d "error" = none →
      decodeLoop cid (ParsedChunk.dict d :: rest) acc m =
        ⟨Outcome.UnexpectedFormat, m, rest⟩) := by
  refine ⟨?_, ?_, ?_, ?_, ?_⟩
  · intro d v h
    have hcl : classify (ParsedChunk.dict d) = StepRes.setSess v := by simp [classify, h]
    simp [decodeLoop, hcl]
  · intro d s h1 h2
    have hcl : classify (ParsedChunk.dict d) = StepRes.append s := by
      simp [classify, h1, h2]
    simp [decodeLoop, hcl]
  · intro d v h1 h2 h3
    have hcl : classify (ParsedChunk.dict d) = StepRes.finishMsg := by
      simp [classify, h1, h2, h3]
    simp [decodeLoop, hcl]
  · intro d v h1 h2 h3 h4
    have hcl : classify (ParsedChunk.dict d) = StepRes.finish (Outcome.ApiError v) := by
      simp [classify, h1, h2, h3, h4]
    simp [decodeLoop, hcl]
  · intro d h1 h2 h3 h4
    have hcl : classify (ParsedChunk.dict d) = StepRes.finish Outcome.UnexpectedFormat := by
      simp [classify, h1, h2, h3, h4]
    simp [decodeLoop, hcl]

theorem C3_dispatch_priority_witness :
    decodeLoop 0
        [ParsedChunk.dict [("session_id", JValue.str "s9"), ("message_id", JValue.num 7)]]
        "" chat_sessions =
      decodeLoop 0 [] "" (setSession 0 (JValue.str "s9") chat_sessions) :=
  (C3_dispatch_priority 0 [] "" chat_sessions).1
    [("session_id", JValue.str "s9"), ("message_id", JValue.num 7)] (JValue.str "s9") rfl

/-- Folding the last-session value from an earlier value factors through
the fold from `none`. -/
theorem lastSessionFrom_shift (cs : List ParsedChunk) (a : Option JValue) :
    lastSessionFrom cs a =
      match lastSessionFrom cs none with
      | some v => some v
      | none => a := by
  induction cs generalizing a with
  | nil => rfl
  | cons c cs ih =>
    cases hcl : classify c with
    | setSess v =>
      have e1 : lastSessionFrom (c :: cs) a = lastSessionFrom cs (some v) := by
        simp only [lastSessionFrom, List.foldl_cons, hcl]
      have e2 : lastSessionFrom (c :: cs) none = lastSessionFrom cs (some v) := by
        simp only [lastSessionFrom, List.foldl_cons, hcl]
      rw [e1, e2, ih (some v)]
      cases lastSessionFrom cs none <;> rfl
    | skip =>
      have e1 : lastSessionFrom (c :: cs) a = lastSessionFrom cs a := by
        simp only [lastSessionFrom, List.foldl_cons, hcl]
      have e2 : lastSessionFrom (c :: cs) none = lastSessionFrom cs none := by
        simp only [lastSessionFrom, List.foldl_cons, hcl]
      rw [e1, e2]
      exact ih a
    | append s =>
      have e1 : lastSessionFrom (c :: cs) a = lastSessionFrom cs a := by
        simp only [lastSessionFrom, List.foldl_cons, hcl]
      have e2 : lastSessionFrom (c :: cs) none = lastSessionFrom cs none := by
        simp only [lastSessionFrom, List.foldl_cons, hcl]
      rw [e1, e2]
      exact ih a
    | finishMsg =>
      have e1 : lastSessionFrom (c :: cs) a = lastSessionFrom cs a := by
        simp only [lastSessionFrom, List.foldl_cons, hcl]
      have e2 : lastSessionFrom (c :: cs) none = lastSessionFrom cs none := by
        simp only [lastSessionFrom, List.foldl_cons, hcl]
      rw [e1, e2]
      exact ih a
    | finish o =>
      have e1 : lastSessionFrom (c :: cs) a = lastSessionFrom cs a := by
        simp only [lastSessionFrom, List.foldl_cons, hcl]
      have e2 : lastSessionFrom (c :: cs) none = lastSessionFrom cs none := by
        simp only [lastSessionFrom, List.foldl_cons, hcl]
      rw [e1, e2]
      exact ih a

/-- At the decoding conversation's key, the session fold computes the
last `session_id` value of the consumed chunks, falling back to the
prior entry. -/
theorem sessionFold_apply_cid (cid : Int) (cs : List ParsedChunk) (m : SessionMap) :
    sessionFold cid cs m cid = lastSessionFrom cs (m cid) := by
  induction cs generalizing m with
  | nil => rfl
  | cons c cs ih =>
    cases hcl : classify c with
    | setSess v =>
      have e1 : sessionFold cid (c :: cs) m = sessionFold cid cs (setSession cid v m) := by
        simp only [sessionFold, List.foldl_cons, stepSession, hcl]
      have e2 : lastSessionFrom (c :: cs) (m cid) = lastSessionFrom cs (some v) := by
        simp only [lastSessionFrom, List.foldl_cons, hcl]
      rw [e1, e2, ih (setSession cid v m)]
      have : setSession cid v m cid = some v := by simp [setSession]
      rw [this]
    | skip =>
      have e1 : sessionFold cid (c :: cs) m = sessionFold cid cs m := by
        simp only [sessionFold, List.foldl_cons, stepSession, hcl]
      have e2 : lastSessionFrom (c :: cs) (m cid) = lastSessionFrom cs (m cid) := by
        simp only [lastSessionFrom, List.foldl_cons, hcl]
      rw [e1, e2, ih m]
    | append s =>
      have e1 : sessionFold cid (c :: cs) m = sessionFold cid cs m := by
        simp only [sessionFold, List.foldl_cons, stepSession, hcl]
      have e2 : lastSessionFrom (c :: cs) (m cid) = lastSessionFrom cs (m cid) := by
        simp only [lastSessionFrom, List.foldl_cons, hcl]
      rw [e1, e2, ih m]
    | finishMsg =>
      have e1 : sessionFold cid (c :: cs) m = sessionFold cid cs m := by
        simp only [sessionFold, List.foldl_cons, stepSession, hcl]
      have e2 : lastSessionFrom (c :: cs) (m cid) = lastSessionFrom cs (m cid) := by
        simp only [lastSessionFrom, List.foldl_cons, hcl]
      rw [e1, e2, ih m]
    | finish o =>
      have e1 : sessionFold cid (c :: cs) m = sessionFold cid cs m := by
        simp only [sessionFold, List.foldl_cons, stepSession, hcl]
      have e2 : lastSessionFrom (c :: cs) (m cid) = lastSessionFrom cs (m cid) := by
        simp only [lastSessionFrom, List.foldl_cons, hcl]
      rw [e1, e2, ih m]

/-- The session fold never writes another conversation's entry. -/
theorem sessionFold_other (cid : Int) (cs : List ParsedChunk) (m : SessionMap) (c2 : Int)
    (h : c2 ≠ cid) :
    sessionFold cid cs m c2 = m c2 := by
  induction cs generalizing m with
  | nil => rfl
  | cons c cs ih =>
    cases hcl : classify c with
    | setSess v =>
      have e1 : sessionFold cid (c :: cs) m = sessionFold cid cs (setSession cid v m) := by
        simp only [sessionFold, List.foldl_cons, stepSession, hcl]
      rw [e1, ih (setSession cid v m)]
      simp [setSession, h]
    | skip =>
      have e1 : sessionFold cid (c :: cs) m = sessionFold cid cs m := by
        simp only [sessionFold, List.foldl_cons, stepSession, hcl]
      rw [e1, ih m]
    | append s =>
      have e1 : sessionFold cid (c :: cs) m = sessionFold cid cs m := by
        simp only [sessionFold, List.foldl_cons, stepSession, hcl]
      rw [e1, ih m]
    | finishMsg =>
      have e1 : sessionFold cid (c :: cs) m = sessionFold cid cs m := by
        simp only [sessionFold, List.foldl_cons, stepSession, hcl]
      rw [e1, ih m]
    | finish o =>
      have e1 : sessionFold cid (c :: cs) m = sessionFold cid cs m := by
        simp only [sessionFold, List.foldl_cons, stepSession, hcl]
      rw [e1, ih m]

/-- The decode loop consumes a prefix of the stream, and its session-map
effect is the fold of that prefix. -/
theorem decodeLoop_consumed (cid : Int) (chunks : List ParsedChunk) (acc : String)
    (m : SessionMap) :
    ∃ consumed,
      chunks = consumed ++ (decodeLoop cid chunks acc m).rest ∧
      (decodeLoop cid chunks acc m).session = sessionFold cid consumed m := by
  induction chunks generalizing acc m with
  | nil => exact ⟨[], rfl, rfl⟩
  | cons c cs ih =>
    cases hcl : classify c with
    | skip =>
      obtain ⟨pre, h1, h2⟩ := ih acc m
      refine ⟨c :: pre, ?_, ?_⟩
      · simp only [decodeLoop, hcl]
        rw [List.cons_append, ← h1]
      · simp only [decodeLoop, hcl, sessionFold, List.foldl_cons, stepSession]
        exact h2
    | setSess v =>
      obtain ⟨pre, h1, h2⟩ := ih acc (setSession cid v m)
      refine ⟨c :: pre, ?_, ?_⟩
      · simp only [decodeLoop, hcl]
        rw [List.cons_append, ← h1]
      · simp only [decodeLoop, hcl, sessionFold, List.foldl_cons, stepSession]
        exact h2
    | append s =>
      obtain ⟨pre, h1, h2⟩ := ih (acc ++ s) m
      refine ⟨c :: pre, ?_, ?_⟩
      · simp only [decodeLoop, hcl]
        rw [List.cons_append, ← h1]
      · simp only [decodeLoop, hcl, sessionFold, List.foldl_cons, stepSession]
        exact h2
    | finishMsg =>
      refine ⟨[c], ?_, ?_⟩
      · simp only [decodeLoop, hcl, List.cons_append, List.nil_append]
      · simp only [decodeLoop, hcl, sessionFold, List.foldl_cons, List.foldl_nil,
          stepSession]
    | finish o =>
      refine ⟨[c], ?_, ?_⟩
      · simp only [decodeLoop, hcl, List.cons_append, List.nil_append]
      · simp only [decodeLoop, hcl, sessionFold, List.foldl_cons, List.foldl_nil,
          stepSession]

/-- C6: decoding consumes a prefix of the stream; the session map after
decoding is the in-order fold of the `session_id` writes of that prefix,
so the conversation's final entry is the value of the last
`session_id`-dispatched chunk consumed (each occurrence overwrites the
prior token, last write wins), falling back to the prior entry when no
such chunk was consumed; entries of other conversations are never
written. -/
theorem C6_session_last_write_wins (cid : Int) (chunks : List ParsedChunk) (acc : String)
    (m : SessionMap) :
    ∃ consumed,
      chunks = consumed ++ (decodeLoop cid chunks acc m).rest ∧
      (decodeLoop cid chunks acc m).session = sessionFold cid consumed m ∧
      (decodeLoop cid chunks acc m).session cid = lastSessionFrom consumed (m cid) ∧
      ∀ c2, c2 ≠ cid → (decodeLoop cid chunks acc m).session c2 = m c2 := by
  obtain ⟨pre, h1, h2⟩ := decodeLoop_consumed cid chunks acc m
  refine ⟨pre, h1, h2, ?_, ?_⟩
  · rw [h2, sessionFold_apply_cid]
  · intro c2 hc2
    rw [h2, sessionFold_other cid pre m c2 hc2]

theorem C6_session_last_write_wins_witness :
    (decodeLoop 0
        [ParsedChunk.dict [("session_id", JValue.str "a")],
         ParsedChunk.dict [("session_id", JValue.str "b")]]
        "" chat_sessions).session 0 = some (JValue.str "b") := by
  obtain ⟨consumed, h1, -, h3, -⟩ :=
    C6_session_last_write_wins 0
      [ParsedChunk.dict [("session_id", JValue.str "a")],
       ParsedChunk.dict [("session_id", JValue.str "b")]] "" chat_sessions
  rw [show (decodeLoop 0
      [ParsedChunk.dict [("session_id", JValue.str "a")],
       ParsedChunk.dict [("session_id", JValue.str "b")]]
      "" chat_sessions).rest = [] from rfl, List.append_nil] at h1
  rw [h3, ← h1]
  rfl

/-- C7: a stream whose chunks up to some point are all non-terminal and
whose next chunk fails to parse terminates at that chunk with the
parse-failure outcome, leaving every later chunk unconsumed, and
`send_to_yarabot` replies to the user with the fixed could-not-parse
message and logs exactly that one outgoing entry. -/
theorem C7_parse_failure_halts (cid : Int) (ty : String) (pre rest : List ParsedChunk)
    (m : SessionMap) (h : ∀ c ∈ pre, nonTerminalChunk c = true) :
    decodeLoop cid (pre ++ ParsedChunk.malformed :: rest) "" m =
      ⟨Outcome.ParseError, sessionFold cid pre m, rest⟩ ∧
    (send_to_yarabot cid ty (NetResult.ok (pre ++ ParsedChunk.malformed :: rest)) m).1 =
      [Event.netCall, Event.reply parseErrorText,
       Event.audit cid "text" parseErrorText "outgoing"] := by
  have hd : decodeLoop cid (pre ++ ParsedChunk.malformed :: rest) "" m =
      ⟨Outcome.ParseError, sessionFold cid pre m, rest⟩ := by
    rw [decodeLoop_append cid pre (ParsedChunk.malformed :: rest) "" m h]
    rfl
  refine ⟨hd, ?_⟩
  simp only [send_to_yarabot, hd, outcomeEvents]

theorem C7_parse_failure_halts_witness :
    decodeLoop 0
        ([ParsedChunk.dict [("data", JValue.str "x")]] ++
          ParsedChunk.malformed :: [ParsedChunk.dict [("message_id", JValue.num 3)]])
        "" chat_sessions =
      ⟨Outcome.ParseError, chat_sessions, [ParsedChunk.dict [("message_id", JValue.num 3)]]⟩ := by
  have h := (C7_parse_failure_halts 0 "text"
      [ParsedChunk.dict [("data", JValue.str "x")]]
      [ParsedChunk.dict [("message_id", JValue.num 3)]] chat_sessions
      (by intro c hc
          simp only [List.mem_cons, List.not_mem_nil, or_false] at hc
          subst hc
          rfl)).1
  exact h.trans (by rfl)

/-- C8: a stream whose chunks up to some point are all non-terminal and
whose next chunk's first-matching key is `error` terminates at that
chunk with `ApiError` carrying the chunk's `error` value, leaving every
later chunk unconsumed. -/
theorem C8_error_halts (cid : Int) (pre rest : List ParsedChunk) (d : JObj) (v : JValue)
    (m : SessionMap) (h : ∀ c ∈ pre, nonTerminalChunk c = true)
    (h1 : jGet d "session_id" = none) (h2 : jGet d "data" = none)
    (h3 : jGet d "message_id" = none) (h4 : jGet d "error" = some v) :
    decodeLoop cid (pre ++ ParsedChunk.dict d :: rest) "" m =
      ⟨Outcome.ApiError v, sessionFold cid pre m, rest⟩ := by
  rw [decodeLoop_append cid pre (ParsedChunk.dict d :: rest) "" m h]
  have hcl : classify (ParsedChunk.dict d) = StepRes.finish (Outcome.ApiError v) := by
    simp [classify, h1, h2, h3, h4]
  simp only [decodeLoop, hcl]

theorem C8_error_halts_witness :
    decodeLoop 0
        ([ParsedChunk.dict [("data", JValue.str "partial")]] ++
          ParsedChunk.dict [("error", JValue.str "boom")] ::
            [ParsedChunk.dict [("data", JValue.str "late")]])
        "" chat_sessions =
      ⟨Outcome.ApiError (JValue.str "boom"), chat_sessions,
       [ParsedChunk.dict [("data", JValue.str "late")]]⟩ := by
  have h := C8_error_halts 0
      [ParsedChunk.dict [("data", JValue.str "partial")]]
      [ParsedChunk.dict [("data", JValue.str "late")]]
      [("error", JValue.str "boom")] (JValue.str "boom") chat_sessions
      (by intro c hc
          simp only [List.mem_cons, List.not_mem_nil, or_false] at hc
          subst hc
          rfl)
      rfl rfl rfl rfl
  exact h.trans (by rfl)

/-- C9: a stream none of whose chunks is `session_id`-dispatched leaves
the session map unchanged at every conversation. -/
theorem C9_session_frame (cid : Int) (chunks : List ParsedChunk) (acc : String)
    (m : SessionMap) (h : ∀ c ∈ chunks, sessionDispatched c = false) :
    ∀ c2, (decodeLoop cid chunks acc m).session c2 = m c2 := by
  induction chunks generalizing acc m with
  | nil => intro c2; rfl
  | cons c cs ih =>
    intro c2
    have hc := h c (List.mem_cons_self c cs)
    have hcs : ∀ x ∈ cs, sessionDispatched x = false :=
      fun x hx => h x (List.mem_cons_of_mem c hx)
    cases hcl : classify c with
    | setSess v => simp [sessionDispatched, hcl] at hc
    | skip =>
      simp only [decodeLoop, hcl]
      exact ih acc m hcs c2
    | append s =>
      simp only [decodeLoop, hcl]
      exact ih (acc ++ s) m hcs c2
    | finishMsg => simp only [decodeLoop, hcl]
    | finish o => simp only [decodeLoop, hcl]

theorem C9_session_frame_witness :
    (decodeLoop 5
        [ParsedChunk.dict [("data", JValue.str "hey")], ParsedChunk.empty,
         ParsedChunk.dict [("message_id", JValue.num 2)]]
        "" chat_sessions).session 5 = none := by
  have h := C9_session_frame 5
      [ParsedChunk.dict [("data", JValue.str "hey")], ParsedChunk.empty,
       ParsedChunk.dict [("message_id", JValue.num 2)]]
      "" chat_sessions
      (by intro c hc
          simp only [List.mem_cons, List.not_mem_nil, or_false] at hc
          rcases hc with rfl | rfl | rfl <;> rfl)
      5
  exact h.trans (by rfl)

/-- C10: a chunk whose first-matching key is `data` but whose value is
not a string makes the append raise; the exception is caught inside the
chunk loop and becomes the terminal processing-error outcome — the
conversation task does not crash, `send_to_yarabot` replies with the
descriptive processing-error message and logs it as outgoing — and no
later chunk is consumed. -/
theorem C10_nonstring_data (cid : Int) (ty : String) (pre rest : List ParsedChunk)
    (d : JObj) (v : JValue) (m : SessionMap)
    (h : ∀ c ∈ pre, nonTerminalChunk c = true)
    (h1 : jGet d "session_id" = none) (h2 : jGet d "data" = some v)
    (h3 : v.isStr = false) :
    decodeLoop cid (pre ++ ParsedChunk.dict d :: rest) "" m =
      ⟨Outcome.ProcessingError, sessionFold cid pre m, rest⟩ ∧
    (send_to_yarabot cid ty (NetResult.ok (pre ++ ParsedChunk.dict d :: rest)) m).1 =
      [Event.netCall, Event.reply processingErrorText,
       Event.audit cid "text" processingErrorText "outgoing"] := by
  have hcl : classify (ParsedChunk.dict d) = StepRes.finish Outcome.ProcessingError := by
    cases v with
    | str s => simp [JValue.isStr] at h3
    | null => simp [classify, h1, h2]
    | bool b => simp [classify, h1, h2]
    | num n => simp [classify, h1, h2]
    | arr es => simp [classify, h1, h2]
    | obj fs => simp [classify, h1, h2]
  have hd : decodeLoop cid (pre ++ ParsedChunk.dict d :: rest) "" m =
      ⟨Outcome.ProcessingError, sessionFold cid pre m, rest⟩ := by
    rw [decodeLoop_append cid pre (ParsedChunk.dict d :: rest) "" m h]
    simp only [decodeLoop, hcl]
  refine ⟨hd, ?_⟩
  simp only [send_to_yarabot, hd, outcomeEvents]

theorem C10_nonstring_data_witness :
    decodeLoop 0
        ([] ++ ParsedChunk.dict [("data", JValue.num 42)] :: [ParsedChunk.malformed])
        "" chat_sessions =
      ⟨Outcome.ProcessingError, chat_sessions, [ParsedChunk.malformed]⟩ := by
  have h := (C10_nonstring_data 0 "text" [] [ParsedChunk.malformed]
      [("data", JValue.num 42)] (JValue.num 42) chat_sessions
      (by intro c hc; exact absurd hc (List.not_mem_nil c))
      rfl rfl rfl).1
  exact h.trans (by rfl)

/-- Every trace of `send_to_yarabot` contains no incoming audit append
and at least one outgoing audit append for the calling conversation. -/
theorem send_trace_audits (cid : Int) (ty : String) (net : NetResult) (m : SessionMap) :
    auditsOf cid "incoming" (send_to_yarabot cid ty net m).1 = [] ∧
    1 ≤ (auditsOf cid "outgoing" (send_to_yarabot cid ty net m).1).length := by
  cases net with
  | ok chunks =>
    cases ho : (decodeLoop cid chunks "" m).outcome with
    | Delivered t =>
      by_cases hty : ty = "voice" <;>
        simp [send_to_yarabot, ho, outcomeEvents, auditsOf, hty, List.filter]
    | Empty => simp [send_to_yarabot, ho, outcomeEvents, auditsOf, List.filter]
    | ApiError v => simp [send_to_yarabot, ho, outcomeEvents, auditsOf, List.filter]
    | ParseError => simp [send_to_yarabot, ho, outcomeEvents, auditsOf, List.filter]
    | UnexpectedFormat => simp [send_to_yarabot, ho, outcomeEvents, auditsOf, List.filter]
    | ProcessingError => simp [send_to_yarabot, ho, outcomeEvents, auditsOf, List.filter]
  | httpError status body => simp [send_to_yarabot, auditsOf, List.filter]
  | readTimeout => simp [send_to_yarabot, auditsOf, List.filter]
  | netException e => simp [send_to_yarabot, auditsOf, List.filter]

/-- C4 (amended): a voice message whose downloaded audio file is 0 bytes
never reaches the request builder — no network call is opened for it —
the user receives the fixed empty-file error message, the session map is
untouched, and the handler returns without appending any outgoing audit
entry for the rejection (only the earlier incoming entry and the
diagnostic log record the message). -/
theorem C4_empty_voice_rejected (cid : Int) (fid : String) (net : NetResult)
    (m : SessionMap) :
    (handle_voice_message cid (some fid) (DownloadResult.ok 0) net m).1 =
      [Event.audit cid "voice" ("Voice message with file_id: " ++ fid) "incoming",
       Event.reply emptyAudioText] ∧
    Event.netCall ∉ (handle_voice_message cid (some fid) (DownloadResult.ok 0) net m).1 ∧
    (handle_voice_message cid (some fid) (DownloadResult.ok 0) net m).1.filter
        isOutgoingAudit = [] ∧
    (handle_voice_message cid (some fid) (DownloadResult.ok 0) net m).2 = m := by
  refine ⟨rfl, ?_, rfl, rfl⟩
  simp [handle_voice_message]

theorem C4_empty_voice_rejected_cex :
    (handle_voice_message 7 (some "file1") (DownloadResult.ok 0) (NetResult.ok [])
        chat_sessions).1 =
      [Event.audit 7 "voice" "Voice message with file_id: file1" "incoming",
       Event.reply emptyAudioText] ∧
    (handle_voice_message 7 (some "file1") (DownloadResult.ok 0) (NetResult.ok [])
        chat_sessions).1.filter isOutgoingAudit = [] :=
  ⟨rfl, rfl⟩

/-- C5 (amended): a processed text message, and a processed voice message
that carries a voice file and is not rejected by the empty-download
check, each append exactly one incoming audit entry, which is the very
first emitted event — so it precedes the network call and every outgoing
entry — and at least one outgoing audit entry for the same conversation
follows. -/
theorem C5_audit_order (cid : Int) (msg fid : String) (net : NetResult)
    (dl : DownloadResult) (m : SessionMap) (hdl : dl ≠ DownloadResult.ok 0) :
    ((handle_text_message cid msg net m).1.head? =
        some (Event.audit cid "text" msg "incoming") ∧
      (auditsOf cid "incoming" (handle_text_message cid msg net m).1).length = 1 ∧
      1 ≤ (auditsOf cid "outgoing" (handle_text_message cid msg net m).1).length) ∧
    ((handle_voice_message cid (some fid) dl net m).1.head? =
        some (Event.audit cid "voice" ("Voice message with file_id: " ++ fid)
          "incoming") ∧
      (auditsOf cid "incoming" (handle_voice_message cid (some fid) dl net m).1).length
          = 1 ∧
      1 ≤ (auditsOf cid "outgoing"
            (handle_voice_message cid (some fid) dl net m).1).length) := by
  obtain ⟨hsi, hso⟩ := send_trace_audits cid "text" net m
  obtain ⟨hvi, hvo⟩ := send_trace_audits cid "voice" net m
  constructor
  · refine ⟨rfl, ?_, ?_⟩
    · simp [handle_text_message, auditsOf, List.filter] at hsi ⊢
      exact hsi
    · simp [handle_text_message, auditsOf, List.filter] at hso ⊢
      exact hso
  · cases dl with
    | failed e =>
      refine ⟨rfl, ?_, ?_⟩
      · simp [handle_voice_message, auditsOf, List.filter]
      · simp [handle_voice_message, auditsOf, List.filter]
    | ok size =>
      have hs : ¬ size = 0 := by
        intro h0
        exact hdl (by rw [h0])
      refine ⟨?_, ?_, ?_⟩
      · simp [handle_voice_message, hs]
      · simp [handle_voice_message, hs, auditsOf, List.filter] at hvi ⊢
        exact hvi
      · simp [handle_voice_message, hs, auditsOf, List.filter] at hvo ⊢
        exact hvo

theorem C5_audit_order_witness :
    (auditsOf 1 "incoming"
        (handle_text_message 1 "hi" (NetResult.ok []) chat_sessions).1).length = 1 ∧
    1 ≤ (auditsOf 1 "outgoing"
        (handle_text_message 1 "hi" (NetResult.ok []) chat_sessions).1).length :=
  ((C5_audit_order 1 "hi" "f" (NetResult.ok []) (DownloadResult.failed "boom")
      chat_sessions (fun h => nomatch h)).1).2

theorem C5_audit_order_cex :
    (auditsOf 3 "incoming"
        (handle_voice_message 3 (some "f0") (DownloadResult.ok 0) (NetResult.ok [])
          chat_sessions).1).length = 1 ∧
    (auditsOf 3 "outgoing"
        (handle_voice_message 3 (some "f0") (DownloadResult.ok 0) (NetResult.ok [])
          chat_sessions).1).length = 0 :=
  ⟨rfl, rfl⟩

end Yarabot
